import Mathlib

/-!
Shallow embedding of `piehole.py` (Git replication via an etcd-like KV store)
and proofs about its specification claims.

The embedding models the pure decision logic of the source functions.
External effects (HTTP responses from the KV service, git subprocess
outcomes, daemon reachability) are supplied as explicit environment values,
and each modelled function returns the observable trace of what the Python
code would do: KV writes proposed, git commands run, log lines, exit code,
or the uncaught Python exception that would propagate.
-/

namespace Piehole

/-- Constant from piehole.py line 31: the 40-zero sentinel for an absent ref. -/
def BLANK : String := "0000000000000000000000000000000000000000"

/-- Feature switch from piehole.py line 34. -/
def DAEMON : Bool := true

/-- Uncaught Python exceptions that the modelled code can propagate. -/
inductive PyError
  | typeError
  | keyError
  | jsonError
  | urlError
  | httpError (code : Nat)
  | notImplementedError (msg : String)
  deriving DecidableEq

/-- A parsed JSON object, restricted to the string fields the code reads. -/
def JsonObj := List (String × String)

/-- Field lookup, modelling Python `data.get(k)`. -/
def JsonObj.get (d : JsonObj) (k : String) : Option String := d.lookup k

/-- Outcome of one HTTP request to the KV service, as seen by the client:
either a 2xx response with a parsed JSON body, or an `HTTPError` carrying
the status code and the body (`none` when the body is not valid JSON). -/
inductive KVResp
  | ok (data : JsonObj)
  | httpErr (code : Nat) (data : Option JsonObj)

/-- Embedding of `etcd_read` (piehole.py lines 177-187): on a 2xx response
return `data['value']` (a missing field would raise `KeyError`); on an
`HTTPError` with 400 <= code < 500 return `None`; otherwise re-raise. -/
def etcd_read (resp : KVResp) : Except PyError (Option String) :=
  match resp with
  | .ok data =>
      match data.get ("value") with
      | some v => .ok (some v)
      | none => .error .keyError
  | .httpErr code _ =>
      if 400 ≤ code ∧ code < 500 then .ok none else .error (.httpError code)

/-- Embedding of `etcd_write` (piehole.py lines 189-205): on a 2xx response
return `data.get('action') == 'SET'`; on any `HTTPError` the code logs the
body's message and cause and returns `False` (the handler does not inspect
the status code); `json.loads` of a non-JSON error body raises. -/
def etcd_write (resp : KVResp) : Except PyError Bool :=
  match resp with
  | .ok data => .ok (data.get ("action") == some ("SET"))
  | .httpErr _ (some _) => .ok false
  | .httpErr _ none => .error .jsonError

/-- Model of Python `str.strip()`: remove leading and trailing whitespace
from the character list of the string. -/
def pystrip (s : String) : String :=
  ⟨((s.data.dropWhile Char.isWhitespace).reverse.dropWhile Char.isWhitespace).reverse⟩

/-- Embedding of `reporef` (piehole.py lines 139-144). The argument is the
outcome of `run_git('show-ref', '--hash', ref)`, which per the run_git
contract either returns the combined output or fails with `GitFailure`
carrying that output. `reporef` strips the output, and maps every
`GitFailure` to BLANK. -/
def reporef (showRef : Except String String) : String :=
  match showRef with
  | .ok res => pystrip res
  | .error _ => BLANK

/-- C10: `reporef` is total (it returns a `String`, never an exception):
it returns BLANK whenever the `git show-ref --hash` invocation fails, for
any failure output whatsoever, and otherwise returns the stripped stdout. -/
theorem reporef_total (showRef : Except String String) :
    (∀ e, showRef = .error e → reporef showRef = BLANK) ∧
    (∀ s, showRef = .ok s → reporef showRef = pystrip s) := by
  constructor
  · intro e he; subst he; rfl
  · intro s hs; subst hs; rfl

/-- Witness for C10 at concrete invocation outcomes. -/
theorem reporef_total_w :
    reporef (.error ("fatal: ambiguous argument")) = BLANK ∧
    reporef (.ok (" 3b18e512dba79e4c8300dd08aeb37f8e728b8dad\n")) =
      "3b18e512dba79e4c8300dd08aeb37f8e728b8dad" :=
  ⟨(reporef_total (.error ("fatal: ambiguous argument"))).1 _ rfl,
   by
    have h := (reporef_total (.ok (" 3b18e512dba79e4c8300dd08aeb37f8e728b8dad\n"))).2 _ rfl
    rw [h]; rfl⟩

/-- C5: `etcd_read` returns the `value` field on a 2xx response, `None` on
every 4xx `HTTPError`, and re-raises every 5xx `HTTPError`. -/
theorem etcd_read_contract (resp : KVResp) :
    (∀ d v, resp = .ok d → d.get ("value") = some v →
        etcd_read resp = .ok (some v)) ∧
    (∀ c d, resp = .httpErr c d → 400 ≤ c → c < 500 →
        etcd_read resp = .ok none) ∧
    (∀ c d, resp = .httpErr c d → 500 ≤ c →
        etcd_read resp = .error (.httpError c)) := by
  refine ⟨?_, ?_, ?_⟩
  · intro d v hr hv; subst hr; simp [etcd_read, hv]
  · intro c d hr h1 h2; subst hr; simp [etcd_read, h1, h2]
  · intro c d hr h5; subst hr
    have : ¬(400 ≤ c ∧ c < 500) := by omega
    simp [etcd_read, this]

/-- Witness for C5 at concrete responses. -/
theorem etcd_read_contract_w :
    etcd_read (.ok ([("value", "abc")])) = .ok (some ("abc")) ∧
    etcd_read (.httpErr 404 none) = .ok none ∧
    etcd_read (.httpErr 500 none) = .error (.httpError 500) :=
  ⟨(etcd_read_contract (.ok ([("value", "abc")]))).1 _ _ rfl rfl,
   (etcd_read_contract (.httpErr 404 none)).2.1 _ _ rfl (by decide) (by decide),
   (etcd_read_contract (.httpErr 500 none)).2.2 _ _ rfl (by decide)⟩

/-- C4 counterexample: a 5xx response from the KV service does NOT propagate
out of `etcd_write`; the `except urllib.error.HTTPError` handler catches it
(whatever the status code), logs the body, and returns `False`. -/
theorem etcd_write_5xx_returns_false :
    etcd_write (.httpErr 500 (some ([("message", "Internal Server Error")]))) =
      .ok false := rfl

/-- C4 (amended): `etcd_write` returns true iff a 2xx response's JSON has
`action = "SET"`; it returns false on EVERY `HTTPError` whose body parses as
JSON, 4xx and 5xx alike (a 5xx does not propagate; only a non-JSON error
body makes the call raise, from `json.loads`). -/
theorem etcd_write_sets (resp : KVResp) :
    (∀ d, resp = .ok d →
        (etcd_write resp = .ok true ↔ d.get ("action") = some ("SET"))) ∧
    (∀ c d, resp = .httpErr c (some d) → etcd_write resp = .ok false) := by
  constructor
  · intro d hr; subst hr
    constructor
    · intro h
      have : (d.get ("action") == some ("SET")) = true := by
        simpa [etcd_write] using h
      exact eq_of_beq this
    · intro h; simp [etcd_write, h]
  · intro c d hr; subst hr; rfl

/-- Witness for C4 at concrete responses. -/
theorem etcd_write_sets_w :
    (etcd_write (.ok ([("action", "SET")])) = .ok true ↔
      JsonObj.get ([("action", "SET")]) ("action") = some ("SET")) ∧
    etcd_write (.httpErr 400 (some ([("message", "test failed")]))) = .ok false :=
  ⟨(etcd_write_sets (.ok ([("action", "SET")]))).1 _ rfl,
   (etcd_write_sets (.httpErr 400 (some ([("message", "test failed")])))).2 _ _ rfl⟩

/-- Exit of a hook process: a `sys.exit` code, or an uncaught Python
exception propagating out of the hook (a traceback). -/
inductive Outcome
  | exit (code : Nat)
  | raised (e : PyError)
  deriving DecidableEq

/-- Environment of one `update` hook invocation (piehole.py lines 322-349):
the hook arguments from `sys.argv[1:4]`, the configured group name, the KV
service's responses to the read of `"<group> <ref>"` and to the CAS write,
and the outcomes of the external actions the hook may take. The
`@register` decorator (sanity check and membership enrollment) runs before
this body; it is modelled separately by the membership machine below. -/
structure UpdateEnv where
  ref : String
  old : String
  new : String
  repogroup : String
  readResp : KVResp
  casResp : KVResp
  updateRefOk : Bool
  daemonReachable : Bool

/-- Observable trace of one hook run: KV write proposals as
(key, value, prevValue) triples, git invocations, daemon submissions as
(ref, action) pairs, log lines, and the outcome. -/
structure HookRun where
  kvWrites : List (String × String × String)
  gitCalls : List (List String)
  daemonCalls : List (String × String)
  logs : List String
  outcome : Outcome
  deriving DecidableEq

/-- Embedding of the `update` hook body (piehole.py lines 322-349).
Control flow follows the source: read `current`; accept when it equals
`new`; otherwise CAS `new` to `"<group> <ref>"` with previous value `''`
when `old` is BLANK and `old` otherwise; on CAS success exit 0; on CAS
failure run `git update-ref ref current` (when `current` is None this
passes None as a subprocess argument and raises an uncaught TypeError),
falling back on GitFailure to a daemon fetch (the DAEMON switch is true; a
connection failure to the daemon raises an uncaught URLError from
`invoke_daemon`), then log the two rejection messages and exit 1. -/
def update (env : UpdateEnv) : HookRun :=
  match etcd_read env.readResp with
  | .error e => ⟨[], [], [], [], .raised e⟩
  | .ok current =>
    if current = some env.new then
      ⟨[], [], [],
       ["Accepting replication of " ++ env.ref ++ " from " ++ env.old ++
        " to " ++ env.new], .exit 0⟩
    else
      match etcd_write env.casResp with
      | .error e =>
          ⟨[(env.repogroup ++ " " ++ env.ref, env.new,
             if env.old = BLANK then "" else env.old)], [], [], [], .raised e⟩
      | .ok true =>
          ⟨[(env.repogroup ++ " " ++ env.ref, env.new,
             if env.old = BLANK then "" else env.old)], [], [],
           ["Updating " ++ env.ref ++ " from " ++ env.old ++ " to " ++
            env.new ++ "."], .exit 0⟩
      | .ok false =>
        match current with
        | none =>
            ⟨[(env.repogroup ++ " " ++ env.ref, env.new,
               if env.old = BLANK then "" else env.old)], [], [], [],
             .raised .typeError⟩
        | some cur =>
          if env.updateRefOk then
            ⟨[(env.repogroup ++ " " ++ env.ref, env.new,
               if env.old = BLANK then "" else env.old)],
             [[("update-ref"), env.ref, cur]], [],
             ["Setting " ++ env.ref ++ " to known commit " ++ cur,
              "Failed to update " ++ env.ref ++ ". Replication in progress.",
              "Please try your push again."], .exit 1⟩
          else if DAEMON then
            if env.daemonReachable then
              ⟨[(env.repogroup ++ " " ++ env.ref, env.new,
                 if env.old = BLANK then "" else env.old)],
               [[("update-ref"), env.ref, cur]], [(env.ref, ("fetch"))],
               ["Started fetch of " ++ env.ref,
                "Failed to update " ++ env.ref ++ ". Replication in progress.",
                "Please try your push again."], .exit 1⟩
            else
              ⟨[(env.repogroup ++ " " ++ env.ref, env.new,
                 if env.old = BLANK then "" else env.old)],
               [[("update-ref"), env.ref, cur]], [], [], .raised .urlError⟩
          else
            ⟨[(env.repogroup ++ " " ++ env.ref, env.new,
               if env.old = BLANK then "" else env.old)],
             [[("update-ref"), env.ref, cur]], [], [], .raised .typeError⟩

/-- C1: if the KV read of `"<group> <ref>"` returns a value equal to `new`,
the update hook logs acceptance and exits 0, performing no KV write, no git
invocation and no daemon call. -/
theorem update_accept_on_observe (env : UpdateEnv)
    (h : etcd_read env.readResp = .ok (some env.new)) :
    update env =
      ⟨[], [], [],
       ["Accepting replication of " ++ env.ref ++ " from " ++ env.old ++
        " to " ++ env.new], .exit 0⟩ := by
  unfold update
  rw [h]
  simp

/-- Witness for C1: a concrete invocation where the KV already holds `new`. -/
theorem update_accept_on_observe_w :
    update
      { ref := "refs/heads/master", old := BLANK, new := "cafe",
        repogroup := "g", readResp := .ok ([("value", "cafe")]),
        casResp := .ok ([]), updateRefOk := true, daemonReachable := true } =
      ⟨[], [], [],
       ["Accepting replication of refs/heads/master from " ++ BLANK ++
        " to cafe"], .exit 0⟩ := by
  have h := update_accept_on_observe
    { ref := "refs/heads/master", old := BLANK, new := "cafe",
      repogroup := "g", readResp := .ok ([("value", "cafe")]),
      casResp := .ok ([]), updateRefOk := true, daemonReachable := true }
    (by rfl)
  exact h.trans (by decide)

/-- C2: when the KV value differs from `new`, the hook proposes exactly one
CAS write, of `new` to key `"<group> <ref>"`, whose previous value is the
empty string exactly when `old` is BLANK (for nonempty `old`, as git always
passes 40 hex or 40 zero characters) and is `old` itself otherwise; and
when the CAS write succeeds the hook exits 0. -/
theorem update_cas_blank_encoding (env : UpdateEnv) (cur : Option String)
    (hr : etcd_read env.readResp = .ok cur) (hne : cur ≠ some env.new)
    (hold : env.old ≠ "") :
    ((update env).kvWrites =
        [(env.repogroup ++ " " ++ env.ref, env.new,
          if env.old = BLANK then "" else env.old)] ∧
      ∀ w ∈ (update env).kvWrites, (w.2.2 = "" ↔ env.old = BLANK)) ∧
    (etcd_write env.casResp = .ok true → (update env).outcome = .exit 0) := by
  have hk : (update env).kvWrites =
      [(env.repogroup ++ " " ++ env.ref, env.new,
        if env.old = BLANK then "" else env.old)] := by
    cases hcw : etcd_write env.casResp with
    | error e => simp [update, hr, hne, hcw]
    | ok b =>
      cases b
      · cases cur with
        | none => simp [update, hr, hne, hcw]
        | some c =>
          by_cases hu : env.updateRefOk <;>
            by_cases hdr : env.daemonReachable <;>
              simp [update, hr, hne, hcw, hu, hdr, DAEMON]
      · simp [update, hr, hne, hcw]
  refine ⟨⟨hk, ?_⟩, ?_⟩
  · intro w hwmem
    rw [hk] at hwmem
    simp only [List.mem_singleton] at hwmem
    subst hwmem
    constructor
    · intro hz
      by_contra hb
      rw [if_neg hb] at hz
      exact hold hz
    · intro hb
      simp [hb]
  · intro hcas
    simp [update, hr, hne, hcas]

/-- Witness for C2: a create-from-nothing push (`old` = BLANK) whose CAS
succeeds; the proposed previous value is the empty string. -/
theorem update_cas_blank_encoding_w :
    ((update
      { ref := "refs/heads/master", old := BLANK, new := "cafe",
        repogroup := "g", readResp := .httpErr 404 none,
        casResp := .ok ([("action", "SET")]), updateRefOk := true,
        daemonReachable := true }).kvWrites =
        [("g" ++ " " ++ "refs/heads/master", "cafe",
          if BLANK = BLANK then "" else BLANK)] ∧
      ∀ w ∈ (update
      { ref := "refs/heads/master", old := BLANK, new := "cafe",
        repogroup := "g", readResp := .httpErr 404 none,
        casResp := .ok ([("action", "SET")]), updateRefOk := true,
        daemonReachable := true }).kvWrites, (w.2.2 = "" ↔ BLANK = BLANK)) ∧
    (etcd_write (.ok ([("action", "SET")])) = .ok true →
      (update
      { ref := "refs/heads/master", old := BLANK, new := "cafe",
        repogroup := "g", readResp := .httpErr 404 none,
        casResp := .ok ([("action", "SET")]), updateRefOk := true,
        daemonReachable := true }).outcome = .exit 0) :=
  update_cas_blank_encoding
    { ref := "refs/heads/master", old := BLANK, new := "cafe",
      repogroup := "g", readResp := .httpErr 404 none,
      casResp := .ok ([("action", "SET")]), updateRefOk := true,
      daemonReachable := true }
    none (by rfl) (by simp) (by decide)

/-- C6 counterexample: a rejecting invocation (KV value differs from `new`,
CAS fails) where the KV key was absent (`current` is None); the code then
passes None as a subprocess argument to `git update-ref` and dies on an
uncaught TypeError, emitting neither rejection message and never reaching
`sys.exit(1)`. -/
theorem update_reject_none_crash :
    (update
      { ref := "refs/heads/master", old := "cafe", new := "beef",
        repogroup := "g", readResp := .httpErr 404 none,
        casResp := .httpErr 400 (some ([("message", "test failed")])),
        updateRefOk := true, daemonReachable := true }).outcome =
        .raised .typeError ∧
    ("Please try your push again.") ∉
      (update
      { ref := "refs/heads/master", old := "cafe", new := "beef",
        repogroup := "g", readResp := .httpErr 404 none,
        casResp := .httpErr 400 (some ([("message", "test failed")])),
        updateRefOk := true, daemonReachable := true }).logs := by
  constructor
  · rfl
  · decide

/-- C6 (amended): when the KV read returned an actual value different from
`new`, the CAS write returned false, and (relevant on the fetch path) the
daemon connection does not raise, the hook logs "Failed to update <ref>.
Replication in progress." and "Please try your push again." and exits 1, on
both the known-commit catch-up path and the fetch-trigger path. When the
read returned None the hook instead dies on an uncaught TypeError before
emitting either message. -/
theorem update_reject_messages (env : UpdateEnv) (cur : String)
    (hr : etcd_read env.readResp = .ok (some cur))
    (hne : some cur ≠ some env.new)
    (hcas : etcd_write env.casResp = .ok false)
    (hd : env.daemonReachable = true) :
    (update env).outcome = .exit 1 ∧
    ("Failed to update " ++ env.ref ++ ". Replication in progress.") ∈
      (update env).logs ∧
    ("Please try your push again.") ∈ (update env).logs := by
  by_cases hu : env.updateRefOk <;>
    simp [update, hr, hne, hcas, hu, DAEMON, hd]

/-- Witness for C6 (amended) on the fetch-trigger path. -/
theorem update_reject_messages_w :
    (update
      { ref := "refs/heads/master", old := "cafe", new := "beef",
        repogroup := "g", readResp := .ok ([("value", "f00d")]),
        casResp := .httpErr 400 (some ([("message", "test failed")])),
        updateRefOk := false, daemonReachable := true }).outcome = .exit 1 ∧
    ("Failed to update " ++ "refs/heads/master" ++
      ". Replication in progress.") ∈
      (update
      { ref := "refs/heads/master", old := "cafe", new := "beef",
        repogroup := "g", readResp := .ok ([("value", "f00d")]),
        casResp := .httpErr 400 (some ([("message", "test failed")])),
        updateRefOk := false, daemonReachable := true }).logs ∧
    ("Please try your push again.") ∈
      (update
      { ref := "refs/heads/master", old := "cafe", new := "beef",
        repogroup := "g", readResp := .ok ([("value", "f00d")]),
        casResp := .httpErr 400 (some ([("message", "test failed")])),
        updateRefOk := false, daemonReachable := true }).logs :=
  update_reject_messages
    { ref := "refs/heads/master", old := "cafe", new := "beef",
      repogroup := "g", readResp := .ok ([("value", "f00d")]),
      casResp := .httpErr 400 (some ([("message", "test failed")])),
      updateRefOk := false, daemonReachable := true }
    ("f00d") (by rfl) (by decide) (by rfl) (by rfl)

/-- Environment of one `start_transfer` call (piehole.py lines 284-306):
the configured `repourl` of this member, the membership list returned by
`repogroup_members()`, and for each remote the success of the git
push/fetch against it (a failure raises GitFailure, which the loop catches
and logs). -/
structure TransferEnv where
  here : String
  members : List String
  gitOk : String → Bool

/-- Model of Python `str.startswith(pre)` over the character lists. -/
def pystartswith (s pre : String) : Bool := pre.data.isPrefixOf s.data

/-- Model of Python slicing `s[n:]` over the character list. -/
def pydrop (s : String) (n : Nat) : String := ⟨s.data.drop n⟩

/-- Loop body of `start_transfer` (piehole.py lines 300-306): iterate over
every member other than `here` and never break; a `GitFailure` is caught
and logged, a success is logged, and iteration continues either way. -/
def transferLoop (command refname : String) (env : TransferEnv) :
    List (List String) × List String :=
  ((env.members.filter (fun r => r ≠ env.here)).map
     (fun r => [command, r,
       if command = "fetch" then refname ++ ":" ++ refname else refname]),
   (env.members.filter (fun r => r ≠ env.here)).map
     (fun r =>
       if env.gitOk r then "ok: " ++ command ++ " " ++ r
       else "error: " ++ command ++ " " ++ r))

/-- Embedding of `start_transfer` (piehole.py lines 284-306). Returns the
list of git invocations `[command, remote, target]` actually run, in order,
together with the log lines, or the `NotImplementedError` raised on an
unknown command or a ref outside refs/heads/ and refs/tags/. -/
def start_transfer (ref command : String) (env : TransferEnv) :
    Except PyError (List (List String) × List String) :=
  if ¬(command = "fetch" ∨ command = "push") then
    .error (.notImplementedError ("Unknown command: " ++ command))
  else if pystartswith ref ("refs/heads/") then
    .ok (transferLoop command (pydrop ref 11) env)
  else if pystartswith ref ("refs/tags/") then
    .ok (transferLoop command (pydrop ref 10) env)
  else
    .error (.notImplementedError (command ++ " of unknown item " ++ ref))

/-- C7 counterexample: a fetch transfer with peers b and c where the fetch
from b (the first peer tried) succeeds still runs `git fetch` against c;
the loop does not stop after the first success. -/
theorem start_transfer_fetch_no_stop :
    start_transfer ("refs/heads/master") ("fetch")
      { here := "file:///a", members := ["file:///a", "file:///b", "file:///c"],
        gitOk := fun _ => true } =
      .ok ([[("fetch"), "file:///b", "master:master"],
            [("fetch"), "file:///c", "master:master"]],
           ["ok: fetch file:///b", "ok: fetch file:///c"]) ∧
    ([[("fetch"), "file:///b", "master:master"],
      [("fetch"), "file:///c", "master:master"]] : List (List String)) ≠
      [[("fetch"), "file:///b", "master:master"]] := by
  constructor
  · rfl
  · decide

/-- C7 (amended): every fetch transfer — for a refs/heads/ ref or a
refs/tags/ ref alike — runs `git fetch <peer> <refname>:<refname>` against
every member other than the one whose URL equals this repo's configured
URL, in membership order, and does not stop after the first success: the
invocation list is the full map over the filtered membership, whatever
`gitOk` says. The refname is the ref without its `refs/heads/` or
`refs/tags/` namespace, as the source slices it. -/
theorem start_transfer_fetch_all_peers (ref : String) (env : TransferEnv)
    (h : pystartswith ref ("refs/heads/") = true ∨
      pystartswith ref ("refs/tags/") = true) :
    start_transfer ref ("fetch") env =
      .ok ((env.members.filter (fun r => r ≠ env.here)).map
             (fun r => [("fetch"), r,
               (if pystartswith ref ("refs/heads/") then pydrop ref 11
                else pydrop ref 10) ++ ":" ++
               (if pystartswith ref ("refs/heads/") then pydrop ref 11
                else pydrop ref 10)]),
           (env.members.filter (fun r => r ≠ env.here)).map
             (fun r =>
               if env.gitOk r then "ok: " ++ "fetch" ++ " " ++ r
               else "error: " ++ "fetch" ++ " " ++ r)) := by
  unfold start_transfer
  rw [if_neg (by simp)]
  by_cases hh : pystartswith ref ("refs/heads/") = true
  · rw [if_pos hh]
    unfold transferLoop
    simp [hh]
  · have ht : pystartswith ref ("refs/tags/") = true := by
      rcases h with h1 | h2
      · exact absurd h1 hh
      · exact h2
    rw [if_neg hh, if_pos ht]
    unfold transferLoop
    simp [hh]

/-- Witness for C7 (amended): a tag fetch (spec scenario 6) with two peers
besides self, first fetch fails, second succeeds; both are attempted. -/
theorem start_transfer_fetch_all_peers_w :
    start_transfer ("refs/tags/fun") ("fetch")
      { here := "file:///a", members := ["file:///a", "file:///b", "file:///c"],
        gitOk := fun r => r = "file:///c" } =
      .ok ((["file:///a", "file:///b", "file:///c"].filter
              (fun r => r ≠ "file:///a")).map
             (fun r => [("fetch"), r,
               (if pystartswith ("refs/tags/fun") ("refs/heads/") then
                  pydrop ("refs/tags/fun") 11
                else pydrop ("refs/tags/fun") 10) ++ ":" ++
               (if pystartswith ("refs/tags/fun") ("refs/heads/") then
                  pydrop ("refs/tags/fun") 11
                else pydrop ("refs/tags/fun") 10)]),
           (["file:///a", "file:///b", "file:///c"].filter
              (fun r => r ≠ "file:///a")).map
             (fun r =>
               if (r = "file:///c" : Bool) then "ok: " ++ "fetch" ++ " " ++ r
               else "error: " ++ "fetch" ++ " " ++ r)) :=
  start_transfer_fetch_all_peers ("refs/tags/fun")
    { here := "file:///a", members := ["file:///a", "file:///b", "file:///c"],
      gitOk := fun r => r = "file:///c" } (by decide)

/-- Environment of one POST request to the transfer daemon
(piehole.py lines 71-109): whether the content type is the urlencoded form
type, the parsed form parameters (first value of each field, as
`params[k][0]` reads them), whether `os.chdir(params['repo'][0])` succeeds,
and the sanity check result with its failure message. -/
structure PostEnv where
  ctypeOk : Bool
  params : List (String × String)
  chdirOk : Bool
  sanityOk : Bool
  sanityMsg : String

/-- Result of one POST request: the HTTP status and body sent, and the
transfer (ref, action) started after the response, if any. -/
structure PostResult where
  code : Nat
  body : String
  transfer : Option (String × String)
  deriving DecidableEq

/-- Embedding of `TransferRequestHandler.do_POST` (piehole.py lines
71-109). The try block: a wrong content type raises a generic Exception
(caught as 500); a missing `action` raises KeyError (caught as 400); for
any action other than `ping` the handler chdirs into `repo` (missing key:
400; OSError: 500), runs the sanity check (SanityCheckFailure: 400), and
reads `ref` (missing key: 400). Success sets code 200 with empty body.
After sending the response, when code is 200 and both `action` and `ref`
are truthy, `start_transfer(ref, action)` runs. The action's value is NOT
checked here: any non-ping action with valid parameters is answered 200,
and only the later `start_transfer` raises on an unknown action. -/
def do_POST (env : PostEnv) : PostResult :=
  let tri : Nat × String × Option String × Option String :=
    if ¬env.ctypeOk then (500, "bad content type", none, none)
    else
      match env.params.lookup ("action") with
      | none =>
          (400, "Error in request: missing parameter 'action'", none, none)
      | some action =>
        if action = "ping" then (200, "", some action, none)
        else
          match env.params.lookup ("repo") with
          | none =>
              (400, "Error in request: missing parameter 'repo'",
               some action, none)
          | some _ =>
            if ¬env.chdirOk then
              (500, "chdir failed", some action, none)
            else if ¬env.sanityOk then
              (400, env.sanityMsg ++ "\n", some action, none)
            else
              match env.params.lookup ("ref") with
              | none =>
                  (400, "Error in request: missing parameter 'ref'",
                   some action, none)
              | some ref => (200, "", some action, some ref)
  match tri with
  | (code, out, oact, oref) =>
    let transfer :=
      match oact, oref with
      | some a, some r =>
          if code = 200 ∧ a ≠ "" ∧ r ≠ "" then some (r, a) else none
      | _, _ => none
    ⟨code, out, transfer⟩

/-- Events emitted by the handler, in order: the HTTP response (status and
body, fully written to the socket by `send_response`/`wfile.write`), then
the transfer started by `start_transfer`. -/
inductive Event
  | respond (code : Nat) (body : String)
  | transfer (ref action : String)
  deriving DecidableEq

/-- Event trace of one POST request: the response write comes first (lines
102-106), and `start_transfer` runs only afterwards (lines 107-109). -/
def do_POST_events (env : PostEnv) : List Event :=
  [Event.respond (do_POST env).code (do_POST env).body] ++
    (match (do_POST env).transfer with
     | some (r, a) => [Event.transfer r a]
     | none => [])

/-- C8 counterexample: a request with the unrecognized action `frobnicate`
and valid repo and ref parameters is answered 200 with an empty body, not
400; the unknown action only blows up in `start_transfer`, after the
response has been sent. -/
theorem do_POST_unknown_action_200 :
    do_POST
      { ctypeOk := true,
        params := [("action", "frobnicate"), ("repo", "/srv/repo.git"),
                   ("ref", "refs/heads/master")],
        chdirOk := true, sanityOk := true, sanityMsg := "" } =
      ⟨200, "", some ("refs/heads/master", "frobnicate")⟩ ∧ (200 : Nat) ≠ 400 := by
  constructor
  · rfl
  · decide

/-- Appending a newline always yields a nonempty string; the body of a
sanity-failure response is never empty. -/
theorem append_newline_ne_empty (s : String) : s ++ "\n" ≠ "" := by
  intro h
  have hd : (s ++ "\n").data = ("" : String).data := by rw [h]
  rw [String.data_append] at hd
  simp at hd

/-- C8 (amended): with the right content type and a successful chdir, the
daemon responds 400 exactly when a required parameter is missing (`action`;
or `repo`/`ref` for a non-ping action) or the sanity check fails, and every
400 carries a nonempty error body. Unrecognized actions and malformed refs
are NOT rejected here: they get 200 and fail only after the response. -/
theorem do_POST_400_iff (env : PostEnv)
    (hc : env.ctypeOk = true) (hd : env.chdirOk = true) :
    ((do_POST env).code = 400 ↔
      (env.params.lookup ("action") = none ∨
        (∃ a, env.params.lookup ("action") = some a ∧ a ≠ "ping" ∧
          (env.params.lookup ("repo") = none ∨
            (env.params.lookup ("repo") ≠ none ∧
              (env.sanityOk = false ∨
                (env.sanityOk = true ∧
                  env.params.lookup ("ref") = none))))))) ∧
    ((do_POST env).code = 400 → (do_POST env).body ≠ "") := by
  cases hact : env.params.lookup ("action") with
  | none =>
      constructor
      · simp [do_POST, hc, hact]
      · intro _
        simp [do_POST, hc, hact]
  | some a =>
    by_cases hping : a = "ping"
    · subst hping
      constructor
      · simp [do_POST, hc, hact]
      · intro h400
        exfalso
        simp [do_POST, hc, hact] at h400
    · cases hrepo : env.params.lookup ("repo") with
      | none =>
          constructor
          · simp [do_POST, hc, hact, hping, hrepo]
          · intro _
            simp [do_POST, hc, hact, hping, hrepo]
      | some rp =>
        cases hs : env.sanityOk with
        | false =>
            constructor
            · simp [do_POST, hc, hd, hact, hping, hrepo, hs]
            · intro _
              simp only [do_POST, hc, hd, hact, hping, hrepo, hs]
              simp [append_newline_ne_empty]
        | true =>
          cases href : env.params.lookup ("ref") with
          | none =>
              constructor
              · simp [do_POST, hc, hd, hact, hping, hrepo, hs, href]
              · intro _
                simp [do_POST, hc, hd, hact, hping, hrepo, hs, href]
          | some r =>
              constructor
              · simp [do_POST, hc, hd, hact, hping, hrepo, hs, href]
              · intro h400
                exfalso
                simp [do_POST, hc, hd, hact, hping, hrepo, hs, href] at h400

/-- Concrete daemon request environment: a push request missing `ref`. -/
def envC8 : PostEnv :=
  { ctypeOk := true,
    params := [("action", "push"), ("repo", "/srv/repo.git")],
    chdirOk := true, sanityOk := true, sanityMsg := "" }

/-- Witness for C8 (amended): a push request missing `ref` is a 400 with a
nonempty body. -/
theorem do_POST_400_iff_w :
    ((do_POST envC8).code = 400 ↔
      (envC8.params.lookup ("action") = none ∨
        (∃ a, envC8.params.lookup ("action") = some a ∧ a ≠ "ping" ∧
          (envC8.params.lookup ("repo") = none ∨
            (envC8.params.lookup ("repo") ≠ none ∧
              (envC8.sanityOk = false ∨
                (envC8.sanityOk = true ∧
                  envC8.params.lookup ("ref") = none))))))) ∧
    ((do_POST envC8).code = 400 → (do_POST envC8).body ≠ "") :=
  do_POST_400_iff envC8 (by rfl) (by rfl)

/-- C9: in the handler's event trace, the HTTP response is emitted strictly
before any transfer event: the requesting client gets its response before
the git push/fetch work starts. -/
theorem do_POST_response_before_transfer (env : PostEnv) (i j : Nat)
    (c : Nat) (b r a : String)
    (hi : (do_POST_events env).get? i = some (.respond c b))
    (hj : (do_POST_events env).get? j = some (.transfer r a)) :
    i < j := by
  unfold do_POST_events at hi hj
  rcases ht : (do_POST env).transfer with _ | ⟨rr, aa⟩ <;> simp only [ht] at hi hj
  · cases j <;> simp_all
  · rcases j with _ | j
    · simp at hj
    · rcases i with _ | i
      · omega
      · rcases i with _ | i
        · simp at hi
        · simp at hi

/-- Witness for C9: an accepted push request; the response at index 0
precedes the transfer at index 1. -/
theorem do_POST_response_before_transfer_w :
    (do_POST_events
      { ctypeOk := true,
        params := [("action", "push"), ("repo", "/srv/repo.git"),
                   ("ref", "refs/heads/master")],
        chdirOk := true, sanityOk := true, sanityMsg := "" }).get? 0 =
      some (.respond 200 "") ∧
    (do_POST_events
      { ctypeOk := true,
        params := [("action", "push"), ("repo", "/srv/repo.git"),
                   ("ref", "refs/heads/master")],
        chdirOk := true, sanityOk := true, sanityMsg := "" }).get? 1 =
      some (.transfer ("refs/heads/master") ("push")) ∧
    (0 : Nat) < 1 :=
  ⟨rfl, rfl,
   do_POST_response_before_transfer
     { ctypeOk := true,
       params := [("action", "push"), ("repo", "/srv/repo.git"),
                  ("ref", "refs/heads/master")],
       chdirOk := true, sanityOk := true, sanityMsg := "" }
     0 1 200 "" ("refs/heads/master") ("push") rfl rfl⟩

/-- Model of Python `members.split(' ')` over the character list: split on
every single space, keeping empty pieces (`''.split(' ') == ['']`). -/
def pysplit (s : String) : List String :=
  (s.data.splitOn ' ').map (fun cl => ⟨cl⟩)

/-- Model of Python `' '.join(l)` over the character lists. -/
def pyjoin (l : List String) : String :=
  ⟨[' '].intercalate (l.map String.data)⟩

/-- Model of Python `list.sort()` on strings: sort into nondecreasing
lexicographic order (insertion sort; equal strings are identical, so
stability is irrelevant). -/
def pysort (l : List String) : List String :=
  l.insertionSort (fun a b => a ≤ b)

/-- Modelled from the spec (section 4.2), the CAS semantics of the external
KV service consumed by `etcd_write`: a write with previous value `prev`
succeeds against stored state `kv` iff `prev` is the empty string and the
key does not exist, or the key holds exactly `prev`. -/
def casOk (kv : Option String) (prev : String) : Bool :=
  if prev = "" then decide (kv = none) else decide (kv = some prev)

/-- Embedding of `repogroup_members` (piehole.py lines 238-245) as a
function of the KV value of the group key: a missing key gives the empty
list, a stored value is split on spaces; the result is sorted. -/
def repogroup_members (kv : Option String) : List String :=
  pysort (match kv with | none => [] | some m => pysplit m)

/-- Local state of one member running `add_to_repogroup` (piehole.py lines
247-258): `idle` before the `repogroup_members()` read of a loop
iteration, `observed present` between that read and the CAS write of the
same iteration, `done` after the loop breaks. -/
inductive MLocal
  | idle
  | observed (present : List String)
  | done
  deriving DecidableEq

/-- Global state of the membership protocol: the KV value of the group key
and the local state of each member. -/
structure GState where
  kv : Option String
  locals : List MLocal
  deriving DecidableEq

/-- URL of member `i` (out of range gives `""`; steps never use it out of
range). -/
def murl (urls : List String) (i : Nat) : String := urls.getD i ""

/-- One atomic KV interaction of member `i` in `add_to_repogroup`. The read
of an iteration and the membership test happen together (`found` breaks the
loop, `observe` records the parsed list); the CAS write of the iteration
is a separate atomic step (`casSuccess` breaks the loop, `casFailure`
returns to the top of the loop), so reads and writes of different members
interleave arbitrarily. -/
inductive Step (urls : List String) (i : Nat) : GState → GState → Prop
  | found {s : GState} (h : s.locals[i]? = some MLocal.idle)
      (hmem : murl urls i ∈ repogroup_members s.kv) :
      Step urls i s ⟨s.kv, s.locals.set i MLocal.done⟩
  | observe {s : GState} (h : s.locals[i]? = some MLocal.idle)
      (hmem : murl urls i ∉ repogroup_members s.kv) :
      Step urls i s
        ⟨s.kv, s.locals.set i (MLocal.observed (repogroup_members s.kv))⟩
  | casSuccess {s : GState} {present : List String}
      (h : s.locals[i]? = some (MLocal.observed present))
      (hcas : casOk s.kv (pyjoin present) = true) :
      Step urls i s
        ⟨some (pyjoin (pysort (present ++ [murl urls i]))),
         s.locals.set i MLocal.done⟩
  | casFailure {s : GState} {present : List String}
      (h : s.locals[i]? = some (MLocal.observed present))
      (hcas : casOk s.kv (pyjoin present) = false) :
      Step urls i s ⟨s.kv, s.locals.set i MLocal.idle⟩

/-- A step by some member. -/
def AnyStep (urls : List String) (s t : GState) : Prop := ∃ i, Step urls i s t

/-- Initial state: the group key absent, every member about to run its
first `add_to_repogroup` iteration. -/
def initState (urls : List String) : GState :=
  ⟨none, List.replicate urls.length MLocal.idle⟩

/-- States reachable by interleaved `add_to_repogroup` runs. -/
def Reachable (urls : List String) (s : GState) : Prop :=
  Relation.ReflTransGen (AnyStep urls) (initState urls) s

/-- Every member's `add_to_repogroup` loop has broken. -/
def AllDone (s : GState) : Prop := ∀ m ∈ s.locals, m = MLocal.done

/-- A well-formed membership list: sorted, duplicate-free, and containing
only member URLs. -/
def GoodList (urls l : List String) : Prop :=
  l.Sorted (fun a b : String => a ≤ b) ∧ l.Nodup ∧ ∀ x ∈ l, x ∈ urls

/-- The membership list as stored in the KV (unsorted parse). -/
def kvList (s : GState) : List String :=
  match s.kv with | none => [] | some m => pysplit m

/-- Inductive invariant of the membership protocol. -/
def Inv (urls : List String) (s : GState) : Prop :=
  s.locals.length = urls.length ∧
  (s.kv = none ∨ ∃ l, l ≠ [] ∧ GoodList urls l ∧ s.kv = some (pyjoin l)) ∧
  (∀ i present, s.locals[i]? = some (MLocal.observed present) →
      GoodList urls present ∧ murl urls i ∉ present) ∧
  (∀ i, s.locals[i]? = some MLocal.done → murl urls i ∈ kvList s)

/-- Splitting the empty string yields one empty piece, as in Python. -/
theorem pysplit_empty : pysplit "" = [""] := rfl

/-- Splitting undoes joining for nonempty lists of space-free strings. -/
theorem pysplit_pyjoin (l : List String) (hl : l ≠ [])
    (h : ∀ x ∈ l, ' ' ∉ x.data) : pysplit (pyjoin l) = l := by
  unfold pysplit pyjoin
  have hx : ∀ cl ∈ l.map String.data, ' ' ∉ cl := by
    intro cl hcl
    rcases List.mem_map.mp hcl with ⟨x, hxl, hxe⟩
    exact hxe ▸ h x hxl
  have hls : l.map String.data ≠ [] := by
    simpa using hl
  rw [show ((⟨[' '].intercalate (l.map String.data)⟩ : String)).data =
        [' '].intercalate (l.map String.data) from rfl]
  rw [List.splitOn_intercalate (l.map String.data) ' ' hx hls]
  rw [List.map_map]
  exact List.map_id l

/-- Joining a list of nonempty space-free strings gives the empty string
only for the empty list. -/
theorem pyjoin_eq_empty_iff (l : List String)
    (h : ∀ x ∈ l, x ≠ "" ∧ ' ' ∉ x.data) : pyjoin l = "" ↔ l = [] := by
  constructor
  · intro hj
    by_contra hne
    have hs := pysplit_pyjoin l hne (fun x hx => (h x hx).2)
    rw [hj, pysplit_empty] at hs
    have hmem : "" ∈ l := by rw [← hs]; exact List.mem_singleton_self ""
    exact (h "" hmem).1 rfl
  · intro hnil
    subst hnil
    rfl

/-- Joining is injective on nonempty lists of space-free strings. -/
theorem pyjoin_inj (l₁ l₂ : List String) (h1 : l₁ ≠ []) (h2 : l₂ ≠ [])
    (hs1 : ∀ x ∈ l₁, ' ' ∉ x.data) (hs2 : ∀ x ∈ l₂, ' ' ∉ x.data)
    (he : pyjoin l₁ = pyjoin l₂) : l₁ = l₂ := by
  have := pysplit_pyjoin l₁ h1 hs1
  rw [he, pysplit_pyjoin l₂ h2 hs2] at this
  exact this.symm

/-- The sort used by the membership code yields a sorted list. -/
theorem pysort_sorted (l : List String) :
    (pysort l).Sorted (fun a b : String => a ≤ b) :=
  List.sorted_insertionSort _ l

/-- The sort is a permutation of its input. -/
theorem pysort_perm (l : List String) : List.Perm (pysort l) l :=
  List.perm_insertionSort _ l

/-- Membership is preserved by sorting. -/
theorem mem_pysort {x : String} {l : List String} :
    x ∈ pysort l ↔ x ∈ l :=
  List.mem_insertionSort _

/-- Sorting preserves duplicate-freedom. -/
theorem pysort_nodup {l : List String} (h : l.Nodup) : (pysort l).Nodup :=
  (pysort_perm l).nodup_iff.mpr h

/-- A sorted duplicate-free list is fixed by the sort. -/
theorem pysort_eq_self {l : List String}
    (h : l.Sorted (fun a b : String => a ≤ b)) : pysort l = l :=
  List.eq_of_perm_of_sorted (pysort_perm l) (pysort_sorted l) h

/-- A member index below the length names a member URL. -/
theorem murl_mem : ∀ (urls : List String) (i : Nat), i < urls.length →
    murl urls i ∈ urls
  | u :: _, 0, _ => by simp [murl]
  | _ :: us, i + 1, h => by
      have hm := murl_mem us i (by simpa using h)
      simp only [murl, List.getD_cons_succ]
      exact List.mem_cons_of_mem _ hm

/-- The members list read from a state is the sort of the stored list. -/
theorem repogroup_members_eq (s : GState) :
    repogroup_members s.kv = pysort (kvList s) := by
  cases h : s.kv <;> simp [repogroup_members, kvList, h]

/-- Elements of a well-formed list are nonempty and space-free. -/
theorem goodStr_of_goodList {urls l : List String}
    (hu : ∀ x ∈ urls, x ≠ "" ∧ ' ' ∉ x.data) (hg : GoodList urls l) :
    ∀ x ∈ l, x ≠ "" ∧ ' ' ∉ x.data :=
  fun x hx => hu x (hg.2.2 x hx)

/-- Identification of the stored KV list under the invariant. -/
theorem kvList_of_eq {urls : List String} {s : GState} {l : List String}
    (hu : ∀ x ∈ urls, x ≠ "" ∧ ' ' ∉ x.data)
    (hne : l ≠ []) (hg : GoodList urls l) (hkv : s.kv = some (pyjoin l)) :
    kvList s = l := by
  unfold kvList
  rw [hkv]
  exact pysplit_pyjoin l hne (fun x hx => (goodStr_of_goodList hu hg x hx).2)

/-- Under the invariant, the members list read from the KV is well formed. -/
theorem repogroup_members_good {urls : List String} {s : GState}
    (hu : ∀ x ∈ urls, x ≠ "" ∧ ' ' ∉ x.data)
    (hkv : s.kv = none ∨
      ∃ l, l ≠ [] ∧ GoodList urls l ∧ s.kv = some (pyjoin l)) :
    GoodList urls (repogroup_members s.kv) := by
  rcases hkv with h0 | ⟨l, hne, hg, heq⟩
  · rw [h0]
    exact ⟨List.sorted_nil, List.nodup_nil,
      fun x hx => absurd hx (List.not_mem_nil x)⟩
  · have hk : kvList s = l := kvList_of_eq hu hne hg heq
    rw [repogroup_members_eq, hk, pysort_eq_self hg.1]
    exact hg

/-- The initial state satisfies the invariant. -/
theorem inv_init (urls : List String) : Inv urls (initState urls) := by
  refine ⟨by simp [initState], Or.inl rfl, ?_, ?_⟩
  · intro i present hj
    simp only [initState, List.getElem?_replicate] at hj
    split at hj <;> simp at hj
  · intro i hj
    simp only [initState, List.getElem?_replicate] at hj
    split at hj <;> simp at hj

/-- One protocol step preserves the invariant. -/
theorem inv_step (urls : List String)
    (hu : ∀ x ∈ urls, x ≠ "" ∧ ' ' ∉ x.data)
    {i : Nat} {s t : GState} (hst : Step urls i s t) (hinv : Inv urls s) :
    Inv urls t := by
  obtain ⟨hlen, hkv, hobs, hdone⟩ := hinv
  cases hst with
  | found h hmem =>
      refine ⟨by simp [List.length_set, hlen], hkv, ?_, ?_⟩
      · intro j present hj
        by_cases hij : i = j
        · subst hij
          rw [List.getElem?_set_self', h] at hj
          simp at hj
        · rw [List.getElem?_set_ne hij] at hj
          exact hobs j present hj
      · intro j hj
        by_cases hij : i = j
        · subst hij
          rw [repogroup_members_eq] at hmem
          exact mem_pysort.mp hmem
        · rw [List.getElem?_set_ne hij] at hj
          exact hdone j hj
  | observe h hmem =>
      refine ⟨by simp [List.length_set, hlen], hkv, ?_, ?_⟩
      · intro j present hj
        by_cases hij : i = j
        · subst hij
          rw [List.getElem?_set_self', h] at hj
          simp only [Function.const, Option.map_eq_map, Option.map_some,
            Option.some.injEq] at hj
          cases hj
          exact ⟨repogroup_members_good hu hkv, hmem⟩
        · rw [List.getElem?_set_ne hij] at hj
          exact hobs j present hj
      · intro j hj
        by_cases hij : i = j
        · subst hij
          rw [List.getElem?_set_self', h] at hj
          simp at hj
        · rw [List.getElem?_set_ne hij] at hj
          exact hdone j hj
  | casSuccess h hcas =>
      rename_i present
      obtain ⟨hgp, hnotin⟩ := hobs i present h
      obtain ⟨hi, _⟩ := List.getElem?_eq_some.mp h
      have hiu : i < urls.length := hlen ▸ hi
      have hmu : murl urls i ∈ urls := murl_mem urls i hiu
      have hgu := hu _ hmu
      have hgoodnew : GoodList urls (pysort (present ++ [murl urls i])) := by
        refine ⟨pysort_sorted _, ?_, ?_⟩
        · refine pysort_nodup (List.Nodup.append hgp.2.1 ?_ ?_)
          · simp
          · exact List.disjoint_singleton.mpr hnotin
        · intro x hx
          rcases List.mem_append.mp (mem_pysort.mp hx) with hx1 | hx2
          · exact hgp.2.2 x hx1
          · rw [List.mem_singleton] at hx2
            exact hx2 ▸ hmu
      have hnewne : pysort (present ++ [murl urls i]) ≠ [] := by
        intro hc
        have hl := (pysort_perm (present ++ [murl urls i])).length_eq
        rw [hc] at hl
        simp at hl
      have hkvnew : kvList
          (⟨some (pyjoin (pysort (present ++ [murl urls i]))),
            s.locals.set i MLocal.done⟩ : GState) =
          pysort (present ++ [murl urls i]) := by
        unfold kvList
        exact pysplit_pyjoin _ hnewne
          (fun x hx => (goodStr_of_goodList hu hgoodnew x hx).2)
      refine ⟨by simp [List.length_set, hlen], ?_, ?_, ?_⟩
      · exact Or.inr ⟨pysort (present ++ [murl urls i]), hnewne, hgoodnew, rfl⟩
      · intro j pr hj
        by_cases hij : i = j
        · subst hij
          rw [List.getElem?_set_self', h] at hj
          simp at hj
        · rw [List.getElem?_set_ne hij] at hj
          exact hobs j pr hj
      · intro j hj
        rw [hkvnew]
        by_cases hij : i = j
        · subst hij
          exact mem_pysort.mpr (List.mem_append.mpr
            (Or.inr (List.mem_singleton_self _)))
        · rw [List.getElem?_set_ne hij] at hj
          have hjm := hdone j hj
          by_cases hpe : pyjoin present = ""
          · have hpnil : present = [] :=
              (pyjoin_eq_empty_iff present
                (goodStr_of_goodList hu hgp)).mp hpe
            unfold casOk at hcas
            rw [if_pos hpe] at hcas
            have hknone : s.kv = none := of_decide_eq_true hcas
            unfold kvList at hjm
            rw [hknone] at hjm
            simp at hjm
          · unfold casOk at hcas
            rw [if_neg hpe] at hcas
            have hksome : s.kv = some (pyjoin present) :=
              of_decide_eq_true hcas
            have hpne : present ≠ [] := by
              intro hc
              exact hpe (hc ▸ rfl)
            have hks : kvList s = present := by
              unfold kvList
              rw [hksome]
              exact pysplit_pyjoin present hpne
                (fun x hx => (goodStr_of_goodList hu hgp x hx).2)
            rw [hks] at hjm
            exact mem_pysort.mpr (List.mem_append.mpr (Or.inl hjm))
  | casFailure h hcas =>
      refine ⟨by simp [List.length_set, hlen], hkv, ?_, ?_⟩
      · intro j pr hj
        by_cases hij : i = j
        · subst hij
          rw [List.getElem?_set_self', h] at hj
          simp at hj
        · rw [List.getElem?_set_ne hij] at hj
          exact hobs j pr hj
      · intro j hj
        by_cases hij : i = j
        · subst hij
          rw [List.getElem?_set_self', h] at hj
          simp at hj
        · rw [List.getElem?_set_ne hij] at hj
          exact hdone j hj

/-- Every reachable state satisfies the invariant. -/
theorem reachable_inv (urls : List String)
    (hu : ∀ x ∈ urls, x ≠ "" ∧ ' ' ∉ x.data)
    (s : GState) (hr : Reachable urls s) : Inv urls s := by
  unfold Reachable at hr
  induction hr with
  | refl => exact inv_init urls
  | tail _ hbc ih =>
      obtain ⟨i, hstep⟩ := hbc
      exact inv_step urls hu hstep ih

/-- When all members are done, the KV holds exactly the sorted member list. -/
theorem inv_allDone {urls : List String} {s : GState}
    (hnd : urls.Nodup) (hne : urls ≠ [])
    (hu : ∀ x ∈ urls, x ≠ "" ∧ ' ' ∉ x.data)
    (hinv : Inv urls s) (hall : AllDone s) :
    s.kv = some (pyjoin (pysort urls)) := by
  obtain ⟨hlen, hkv, _, hdone⟩ := hinv
  have hdall : ∀ i, i < urls.length → murl urls i ∈ kvList s := by
    intro i hiu
    apply hdone
    have hi : i < s.locals.length := by rw [hlen]; exact hiu
    rw [List.getElem?_eq_getElem hi]
    rw [hall _ (List.getElem_mem hi)]
  have hsub : ∀ x ∈ urls, x ∈ kvList s := by
    intro x hx
    obtain ⟨i, hiu, hix⟩ := List.mem_iff_getElem.mp hx
    have hm := hdall i hiu
    have hmx : murl urls i = x := by
      unfold murl
      rw [List.getD_eq_getElem?_getD, List.getElem?_eq_getElem hiu]
      exact hix
    exact hmx ▸ hm
  rcases hkv with h0 | ⟨l, hlne, hgl, heq⟩
  · exfalso
    obtain ⟨u, hu0⟩ := List.exists_mem_of_ne_nil urls hne
    have := hsub u hu0
    unfold kvList at this
    rw [h0] at this
    simp at this
  · have hks : kvList s = l := kvList_of_eq hu hlne hgl heq
    have hperm : List.Perm l (pysort urls) := by
      rw [List.perm_ext_iff_of_nodup hgl.2.1 (pysort_nodup hnd)]
      intro a
      constructor
      · intro ha
        exact mem_pysort.mpr (hgl.2.2 a ha)
      · intro ha
        have := hsub a (mem_pysort.mp ha)
        rw [hks] at this
        exact this
    have hleq : l = pysort urls :=
      List.eq_of_perm_of_sorted hperm hgl.1 (pysort_sorted urls)
    rw [heq, hleq]

/-- C3: for any interleaved execution of `add_to_repogroup` by members with
distinct, nonempty, space-free URLs, starting from an absent group key:
(1) the group key is always either absent or a space-joined list that is
sorted, duplicate-free and contains only member URLs (so every value
written is such a list, since every write immediately becomes the stored
value); (2) once every member's loop has terminated, the stored value is
exactly the sorted join of all member URLs; (3) a member whose URL is
already in the stored list takes the break in `if config('repourl') in
present`, performing no KV write: its step leaves the KV unchanged and
only marks the member done (self-add is idempotent). -/
theorem add_to_repogroup_membership (urls : List String)
    (hnd : urls.Nodup) (hne : urls ≠ [])
    (hu : ∀ x ∈ urls, x ≠ "" ∧ ' ' ∉ x.data)
    (s : GState) (hr : Reachable urls s) :
    (s.kv = none ∨ ∃ l, l ≠ [] ∧ l.Sorted (fun a b : String => a ≤ b) ∧
       l.Nodup ∧ (∀ x ∈ l, x ∈ urls) ∧ s.kv = some (pyjoin l)) ∧
    (AllDone s → s.kv = some (pyjoin (pysort urls))) ∧
    (∀ i t, s.locals[i]? = some MLocal.idle →
       murl urls i ∈ repogroup_members s.kv →
       Step urls i s t →
       t.kv = s.kv ∧ t.locals = s.locals.set i MLocal.done) := by
  have hinv := reachable_inv urls hu s hr
  refine ⟨?_, ?_, ?_⟩
  · rcases hinv.2.1 with h0 | ⟨l, ha, ⟨g1, g2, g3⟩, he⟩
    · exact Or.inl h0
    · exact Or.inr ⟨l, ha, g1, g2, g3, he⟩
  · intro hall
    exact inv_allDone hnd hne hu hinv hall
  · intro i t hidle hmem hstep
    cases hstep with
    | found h hm => exact ⟨rfl, rfl⟩
    | observe h hm => exact absurd hmem hm
    | casSuccess h hc =>
        rw [hidle] at h
        simp at h
    | casFailure h hc =>
        rw [hidle] at h
        simp at h

/-- Witness for C3: one member with URL "a" runs its loop to completion
(an observe step from the empty store, then a successful CAS); in the
final state the group key holds the sorted singleton join. -/
theorem add_to_repogroup_membership_w :
    ((⟨some (pyjoin (pysort ["a"])), [MLocal.done]⟩ : GState).kv = none ∨
      ∃ l, l ≠ [] ∧ l.Sorted (fun a b : String => a ≤ b) ∧ l.Nodup ∧
        (∀ x ∈ l, x ∈ (["a"] : List String)) ∧
        (⟨some (pyjoin (pysort ["a"])), [MLocal.done]⟩ : GState).kv =
          some (pyjoin l)) ∧
    (AllDone ⟨some (pyjoin (pysort ["a"])), [MLocal.done]⟩ →
      (⟨some (pyjoin (pysort ["a"])), [MLocal.done]⟩ : GState).kv =
        some (pyjoin (pysort ["a"]))) ∧
    (∀ i t,
      (⟨some (pyjoin (pysort ["a"])), [MLocal.done]⟩ :
          GState).locals[i]? = some MLocal.idle →
      murl ["a"] i ∈ repogroup_members
        (⟨some (pyjoin (pysort ["a"])), [MLocal.done]⟩ : GState).kv →
      Step ["a"] i ⟨some (pyjoin (pysort ["a"])), [MLocal.done]⟩ t →
      t.kv = (⟨some (pyjoin (pysort ["a"])), [MLocal.done]⟩ : GState).kv ∧
      t.locals =
        (⟨some (pyjoin (pysort ["a"])), [MLocal.done]⟩ :
          GState).locals.set i MLocal.done) := by
  apply add_to_repogroup_membership ["a"] (by decide) (by decide) (by decide)
  have step1 : AnyStep ["a"] (initState ["a"]) ⟨none, [MLocal.observed []]⟩ :=
    ⟨0, Step.observe rfl (by decide)⟩
  have step2 : AnyStep ["a"] ⟨none, [MLocal.observed []]⟩
      ⟨some (pyjoin (pysort ["a"])), [MLocal.done]⟩ :=
    ⟨0, @Step.casSuccess ["a"] 0 ⟨none, [MLocal.observed []]⟩ [] rfl
      (by decide)⟩
  exact Relation.ReflTransGen.tail
    (Relation.ReflTransGen.tail Relation.ReflTransGen.refl step1) step2

end Piehole
